import Mathlib

/-!
Shallow embedding of the authorization and session-security core of the
board3-v2 backend (RBAC engine, authentication service, encryption service),
translated from `rbac.service`, `auth.service` and `encryption.service`,
together with theorems settling the specification claims about them.

Modelling conventions:
* Machine strings stay `String`; enumerations become inductive types.
* Asynchronous calls become explicit state passing; `try/catch` blocks become
  `Except` values or explicit failure flags on the state, mirroring which
  operations the source wraps in which `try` block.
* The Redis cache is an association list with explicit TTL bookkeeping and a
  logical clock; the Prisma store is a list of records.
* bcrypt hashing, JWT signing and TOTP codes are modelled as injective
  constructions (hashing is deterministic and collision-free in the model,
  signatures carry their payload and key, TOTP codes carry their secret and
  time step), which reflects the negligible-collision behaviour of the real
  primitives.
-/

namespace Board3

/-- Permission actions, from the Prisma `PermissionAction` enum. -/
inductive PermissionAction
  | CREATE | READ | UPDATE | DELETE | DEPLOY | DESTROY | SHARE | ADMIN
  deriving DecidableEq, Repr, Fintype

/-- Protected resource kinds, from the Prisma `PermissionResource` enum. -/
inductive PermissionResource
  | DESIGN | TEMPLATE | PIPELINE | STATE | USER | ROLE | ORGANIZATION
  deriving DecidableEq, Repr, Fintype

/-- The JSON `scope` column of a permission: the source's `checkScope` only
inspects an optional `resourceIds` array, so the model keeps exactly that. -/
structure PermScope where
  resourceIds : Option (List String)
  deriving DecidableEq, Repr

/-- A permission row: `(action, resource, optional scope)`, as in the
`UserPermission` interface of `rbac.service`. -/
structure UserPermission where
  action : PermissionAction
  resource : PermissionResource
  scope : Option PermScope
  deriving DecidableEq, Repr

/-- A role with its permissions, as returned by the Prisma `include`
of `role.permissions` in `rbac.service`. -/
structure Role where
  id : String
  name : String
  description : Option String
  isDefault : Bool
  isSystem : Bool
  permissions : List UserPermission
  deriving DecidableEq, Repr

/-- An `organizationMember` row joined with its role, the shape
`rbac.service` reads via `findFirst ... include role.permissions`. -/
structure OrgMember where
  userId : String
  orgId : String
  isActive : Bool
  role : Role
  deriving DecidableEq, Repr

/-- State threaded through the RBAC engine: the member table, the Redis
permission cache (key to cached permission list), and failure flags that
model the `try/catch`-visible infrastructure errors (a raised error from
`redis.get`, `redis.setex`, or the Prisma query respectively). -/
structure RbacState where
  members : List OrgMember
  cache : List (String × List UserPermission)
  cacheGetFails : Bool
  cacheSetFails : Bool
  dbFails : Bool
  deriving Repr

/-- Association-list lookup used for the Redis cache model. -/
def cacheLookup (cache : List (String × List UserPermission)) (k : String) :
    Option (List UserPermission) :=
  (cache.find? (fun e => e.fst == k)).map (fun e => e.snd)

/-- Association-list insert/overwrite for the cache model (`setex`). -/
def cacheInsert (cache : List (String × List UserPermission)) (k : String)
    (v : List UserPermission) : List (String × List UserPermission) :=
  (k, v) :: cache.filter (fun e => e.fst != k)

/-- Cache key built by `getUserPermissions`:
`user_permissions:userId:(orgId or global)`. -/
def permissionCacheKey (userId : String) (orgId : Option String) : String :=
  "user_permissions:" ++ userId ++ ":" ++ (match orgId with
    | some o => o
    | none => "global")

/-- The member lookup of `getUserPermissions` and `getUserRole`:
`organizationMember.findFirst` on `userId`, `orgId`, `isActive: true`. -/
def findMember (members : List OrgMember) (userId orgId : String) :
    Option OrgMember :=
  members.find? (fun m => m.userId == userId && m.orgId == orgId && m.isActive)

/-- Embeds `RbacService.getUserPermissions`.  Cache-first; on any error
inside its `try` block it returns the empty list (the source `catch`
returns `[]`).  A cache write failure therefore also yields `[]`, because
the `setex` sits inside the same `try`. -/
def getUserPermissions (s : RbacState) (userId : String)
    (orgId : Option String) : List UserPermission × RbacState :=
  let cacheKey := permissionCacheKey userId orgId
  if s.cacheGetFails then ([], s)
  else
    match cacheLookup s.cache cacheKey with
    | some cached => (cached, s)
    | none =>
      if s.dbFails && orgId.isSome then ([], s)
      else
        let permissions : List UserPermission :=
          match orgId with
          | some oid =>
            match findMember s.members userId oid with
            | some orgMember =>
              orgMember.role.permissions.map
                (fun p => { action := p.action, resource := p.resource,
                            scope := p.scope })
            | none => []
          | none => []
        if s.cacheSetFails then ([], s)
        else (permissions,
          { s with cache := cacheInsert s.cache cacheKey permissions })

/-- Embeds the private `RbacService.checkScope`: when the scope carries a
`resourceIds` array the id must be a member, otherwise the scope does not
restrict. -/
def checkScope (scope : PermScope) (resourceId : String) : Bool :=
  match scope.resourceIds with
  | some ids => ids.contains resourceId
  | none => true

/-- The exact-match callback inside `RbacService.checkPermission`: the
permission must carry the requested action and resource, and when it has a
scope and a resource id was supplied, `checkScope` must accept. -/
def exactClause (action : PermissionAction) (resource : PermissionResource)
    (resourceId : Option String) (permission : UserPermission) : Bool :=
  if permission.action != action || permission.resource != resource then
    false
  else
    match permission.scope, resourceId with
    | some sc, some rid => checkScope sc rid
    | _, _ => true

/-- The ADMIN callback inside `RbacService.checkPermission`: an ADMIN
permission on the requested resource or on ORGANIZATION. -/
def adminClause (resource : PermissionResource)
    (permission : UserPermission) : Bool :=
  permission.action == PermissionAction.ADMIN &&
    (permission.resource == resource ||
     permission.resource == PermissionResource.ORGANIZATION)

/-- Embeds `RbacService.checkPermission`: loads the permission set, then an
exact `(action, resource)` match (scope-checked when both a scope and a
resource id are present) or an ADMIN permission on the resource or on
ORGANIZATION grants access.  The surrounding `try/catch` returns `false`
on error; every fallible call is inside `getUserPermissions`, which
already degrades to `[]`. -/
def checkPermission (s : RbacState) (userId : String)
    (action : PermissionAction) (resource : PermissionResource)
    (orgId : Option String) (resourceId : Option String) :
    Bool × RbacState :=
  let (userPermissions, s1) := getUserPermissions s userId orgId
  let hasPermission := userPermissions.any (exactClause action resource resourceId)
  let hasAdminPermission := userPermissions.any (adminClause resource)
  (hasPermission || hasAdminPermission, s1)

/-- The three system roles seeded by `RbacService.initializeDefaultRoles`,
with their exact permission lists transcribed from the source. -/
def defaultRoles : List Role :=
  [ { id := "admin-role", name := "Admin",
      description := some "Full access to all resources",
      isDefault := false, isSystem := true,
      permissions :=
        [ { action := .ADMIN, resource := .ORGANIZATION, scope := none } ] },
    { id := "developer-role", name := "Developer",
      description := some "Can create and manage designs and templates",
      isDefault := true, isSystem := true,
      permissions :=
        [ { action := .CREATE, resource := .DESIGN, scope := none },
          { action := .READ, resource := .DESIGN, scope := none },
          { action := .UPDATE, resource := .DESIGN, scope := none },
          { action := .DELETE, resource := .DESIGN, scope := none },
          { action := .DEPLOY, resource := .DESIGN, scope := none },
          { action := .CREATE, resource := .TEMPLATE, scope := none },
          { action := .READ, resource := .TEMPLATE, scope := none },
          { action := .UPDATE, resource := .TEMPLATE, scope := none },
          { action := .DELETE, resource := .TEMPLATE, scope := none },
          { action := .CREATE, resource := .PIPELINE, scope := none },
          { action := .READ, resource := .PIPELINE, scope := none },
          { action := .UPDATE, resource := .PIPELINE, scope := none },
          { action := .DELETE, resource := .PIPELINE, scope := none },
          { action := .READ, resource := .STATE, scope := none } ] },
    { id := "viewer-role", name := "Viewer",
      description := some "Read-only access to designs and templates",
      isDefault := false, isSystem := true,
      permissions :=
        [ { action := .READ, resource := .DESIGN, scope := none },
          { action := .READ, resource := .TEMPLATE, scope := none },
          { action := .READ, resource := .PIPELINE, scope := none },
          { action := .READ, resource := .STATE, scope := none } ] } ]

/-- Specification-side reading of the scope condition: whenever the
permission carries a scope and a resource id was supplied, the scope must
include that id. -/
def scopeAllows (scope : Option PermScope) (resourceId : Option String) : Prop :=
  ∀ sc i, scope = some sc → resourceId = some i → checkScope sc i = true

/-- Specification-side predicate: `(a, r)` is in the role's permission set,
with the scope (when present) including the optional resource id. -/
def roleGrantsExact (R : Role) (a : PermissionAction)
    (r : PermissionResource) (resourceId : Option String) : Prop :=
  ∃ p ∈ R.permissions, p.action = a ∧ p.resource = r ∧
    scopeAllows p.scope resourceId

/-- Specification-side predicate: the role holds an ADMIN permission on the
resource or on ORGANIZATION. -/
def roleGrantsAdmin (R : Role) (r : PermissionResource) : Prop :=
  ∃ p ∈ R.permissions, p.action = PermissionAction.ADMIN ∧
    (p.resource = r ∨ p.resource = PermissionResource.ORGANIZATION)

/-- The permission-copying closure in `getUserPermissions` is the identity. -/
theorem userPermission_copy_eta :
    (fun p : UserPermission =>
      ({ action := p.action, resource := p.resource, scope := p.scope } :
        UserPermission)) = id := by
  funext p
  cases p
  rfl

/-- Looking a key up right after `cacheInsert` on the same key yields the
inserted value. -/
theorem cacheLookup_insert_self (cache : List (String × List UserPermission))
    (k : String) (v : List UserPermission) :
    cacheLookup (cacheInsert cache k v) k = some v := by
  simp [cacheLookup, cacheInsert, List.find?]

/-- The exact-match clause of `checkPermission` agrees pointwise with the
claim's reading of it. -/
theorem exactClause_eq_true (a : PermissionAction) (r : PermissionResource)
    (resourceId : Option String) (p : UserPermission) :
    exactClause a r resourceId p = true ↔
      (p.action = a ∧ p.resource = r ∧ scopeAllows p.scope resourceId) := by
  obtain ⟨pa, pr, ps⟩ := p
  by_cases ha : pa = a
  · subst ha
    by_cases hr : pr = r
    · subst hr
      cases ps with
      | none =>
        cases resourceId <;> simp [exactClause, scopeAllows]
      | some sc =>
        cases resourceId with
        | none => simp [exactClause, scopeAllows]
        | some i => simp [exactClause, scopeAllows]
    · simp [exactClause, hr]
  · simp [exactClause, ha]

/-- The ADMIN clause of `checkPermission` agrees pointwise with the claim's
reading of it. -/
theorem adminClause_eq_true (r : PermissionResource) (p : UserPermission) :
    adminClause r p = true ↔
      (p.action = PermissionAction.ADMIN ∧
        (p.resource = r ∨ p.resource = PermissionResource.ORGANIZATION)) := by
  simp [adminClause, Bool.and_eq_true, Bool.or_eq_true]

/-- Under consistent infrastructure and a cold cache, `getUserPermissions`
resolves exactly the member's role permissions. -/
theorem getUserPermissions_resolves (s : RbacState) (P T : String)
    (mem : OrgMember)
    (hg : s.cacheGetFails = false) (hset : s.cacheSetFails = false)
    (hdb : s.dbFails = false)
    (hmiss : cacheLookup s.cache (permissionCacheKey P (some T)) = none)
    (hmem : findMember s.members P T = some mem) :
    getUserPermissions s P (some T) =
      (mem.role.permissions,
        { s with cache := cacheInsert s.cache (permissionCacheKey P (some T))
                            mem.role.permissions }) := by
  unfold getUserPermissions
  simp only [hg, hmiss, hdb, hset, hmem, Bool.false_and, Bool.false_eq_true,
    if_false, userPermission_copy_eta, List.map_id]

/-- C1: for a principal with an active membership whose role is `R`, under
consistent infrastructure and a cold cache, `checkPermission` returns true
iff `(a, r)` is in `R`'s permission set (scope, when present, including the
supplied optional resource id) or `R` holds ADMIN on `r` or ORGANIZATION. -/
theorem checkPermission_iff_role_grants (s : RbacState) (P T : String)
    (a : PermissionAction) (r : PermissionResource) (rid : Option String)
    (mem : OrgMember)
    (hg : s.cacheGetFails = false) (hset : s.cacheSetFails = false)
    (hdb : s.dbFails = false)
    (hmiss : cacheLookup s.cache (permissionCacheKey P (some T)) = none)
    (hmem : findMember s.members P T = some mem) :
    (checkPermission s P a r (some T) rid).fst = true ↔
      (roleGrantsExact mem.role a r rid ∨ roleGrantsAdmin mem.role r) := by
  unfold checkPermission
  rw [getUserPermissions_resolves s P T mem hg hset hdb hmiss hmem]
  simp only [Bool.or_eq_true, List.any_eq_true, roleGrantsExact,
    roleGrantsAdmin]
  constructor
  · intro h
    cases h with
    | inl h =>
      obtain ⟨p, hp, hcl⟩ := h
      exact Or.inl ⟨p, hp, (exactClause_eq_true a r rid p).mp hcl⟩
    | inr h =>
      obtain ⟨p, hp, hcl⟩ := h
      exact Or.inr ⟨p, hp, (adminClause_eq_true r p).mp hcl⟩
  · intro h
    cases h with
    | inl h =>
      obtain ⟨p, hp, hcl⟩ := h
      exact Or.inl ⟨p, hp, (exactClause_eq_true a r rid p).mpr hcl⟩
    | inr h =>
      obtain ⟨p, hp, hcl⟩ := h
      exact Or.inr ⟨p, hp, (adminClause_eq_true r p).mpr hcl⟩

/-- Concrete state used to witness the RBAC theorems. -/
def rbacWitnessMember : OrgMember :=
  { userId := "alice", orgId := "t1", isActive := true,
    role := { id := "role-1", name := "Developer", description := none,
              isDefault := false, isSystem := false,
              permissions :=
                [ { action := .CREATE, resource := .DESIGN, scope := none } ] } }

/-- Concrete RBAC state: one active membership, cold cache, healthy
infrastructure. -/
def rbacWitnessState : RbacState :=
  { members := [rbacWitnessMember], cache := [], cacheGetFails := false,
    cacheSetFails := false, dbFails := false }

/-- Witness for C1 at a concrete state: the permission check for
`(CREATE, DESIGN)` agrees with the role's grants. -/
theorem checkPermission_iff_role_grants_witness :
    (checkPermission rbacWitnessState "alice" PermissionAction.CREATE
        PermissionResource.DESIGN (some "t1") none).fst = true ↔
      (roleGrantsExact rbacWitnessMember.role PermissionAction.CREATE
          PermissionResource.DESIGN none ∨
        roleGrantsAdmin rbacWitnessMember.role PermissionResource.DESIGN) :=
  checkPermission_iff_role_grants rbacWitnessState "alice" "t1"
    PermissionAction.CREATE PermissionResource.DESIGN none rbacWitnessMember
    rfl rfl rfl rfl rfl

/-- C2: every infrastructure failure that `checkPermission` can encounter —
a cache read failure, a credential-store failure on a cache miss, or a
cache write failure on a cache miss — makes it return `false` (fail
closed), never `true` and never a propagated error (the embedding is a
total function, mirroring the source's catch-all handlers). -/
theorem checkPermission_fails_closed (s : RbacState) (P : String)
    (a : PermissionAction) (r : PermissionResource) (T : Option String)
    (rid : Option String) :
    (s.cacheGetFails = true →
      (checkPermission s P a r T rid).fst = false) ∧
    (cacheLookup s.cache (permissionCacheKey P T) = none →
      s.dbFails = true → T.isSome = true →
      (checkPermission s P a r T rid).fst = false) ∧
    (cacheLookup s.cache (permissionCacheKey P T) = none →
      s.cacheSetFails = true →
      (checkPermission s P a r T rid).fst = false) := by
  refine ⟨?_, ?_, ?_⟩
  · intro hg
    simp [checkPermission, getUserPermissions, hg]
  · intro hmiss hdb hsome
    cases hg : s.cacheGetFails with
    | true => simp [checkPermission, getUserPermissions, hg]
    | false => simp [checkPermission, getUserPermissions, hg, hmiss, hdb, hsome]
  · intro hmiss hset
    cases hg : s.cacheGetFails with
    | true => simp [checkPermission, getUserPermissions, hg]
    | false =>
      cases hdb : s.dbFails with
      | true =>
        cases hsome : T.isSome with
        | true => simp [checkPermission, getUserPermissions, hg, hmiss, hdb, hsome]
        | false => simp [checkPermission, getUserPermissions, hg, hmiss, hdb, hsome, hset]
      | false => simp [checkPermission, getUserPermissions, hg, hmiss, hdb, hset]

/-- Witness for C2: on a concrete state whose cache read fails, the check
returns false. -/
theorem checkPermission_fails_closed_witness :
    (checkPermission
        { members := [rbacWitnessMember], cache := [], cacheGetFails := true,
          cacheSetFails := false, dbFails := false }
        "alice" PermissionAction.CREATE PermissionResource.DESIGN
        (some "t1") none).fst = false :=
  (checkPermission_fails_closed
      { members := [rbacWitnessMember], cache := [], cacheGetFails := true,
        cacheSetFails := false, dbFails := false }
      "alice" PermissionAction.CREATE PermissionResource.DESIGN
      (some "t1") none).1 rfl

/-- C10: with no tenant id, `getUserPermissions` skips the membership query
entirely, resolves the empty permission list, caches it under the
`...:global` key, and `checkPermission` therefore returns false regardless
of the principal's roles. -/
theorem checkPermission_no_tenant_false (s : RbacState) (P : String)
    (a : PermissionAction) (r : PermissionResource) (rid : Option String)
    (hg : s.cacheGetFails = false) (hset : s.cacheSetFails = false)
    (hmiss : cacheLookup s.cache (permissionCacheKey P none) = none) :
    (getUserPermissions s P none).fst = [] ∧
    cacheLookup (getUserPermissions s P none).snd.cache
        (permissionCacheKey P none) = some [] ∧
    (checkPermission s P a r none rid).fst = false := by
  have hperm : getUserPermissions s P none =
      ([], { s with cache := cacheInsert s.cache (permissionCacheKey P none) [] }) := by
    unfold getUserPermissions
    simp [hg, hmiss, hset]
  refine ⟨?_, ?_, ?_⟩
  · rw [hperm]
  · rw [hperm]
    exact cacheLookup_insert_self s.cache (permissionCacheKey P none) []
  · unfold checkPermission
    rw [hperm]
    rfl

/-- Witness for C10 at a concrete state with a membership carrying broad
permissions: the tenant-less check still yields the empty list and false. -/
theorem checkPermission_no_tenant_false_witness :
    (getUserPermissions rbacWitnessState "alice" none).fst = [] ∧
    cacheLookup (getUserPermissions rbacWitnessState "alice" none).snd.cache
        (permissionCacheKey "alice" none) = some [] ∧
    (checkPermission rbacWitnessState "alice" PermissionAction.CREATE
        PermissionResource.DESIGN none none).fst = false :=
  checkPermission_no_tenant_false rbacWitnessState "alice"
    PermissionAction.CREATE PermissionResource.DESIGN none rfl rfl rfl

/-- The permission set the claim C8 asserts for the Developer role:
CREATE, READ, UPDATE, DELETE and DEPLOY on each of DESIGN, TEMPLATE and
PIPELINE, plus READ on STATE. -/
def claimedDeveloperGrant (a : PermissionAction) (r : PermissionResource) :
    Bool :=
  ((a == .CREATE || a == .READ || a == .UPDATE || a == .DELETE ||
      a == .DEPLOY) &&
    (r == .DESIGN || r == .TEMPLATE || r == .PIPELINE)) ||
  (a == .READ && r == .STATE)

/-- Does a role's permission list contain a plain `(action, resource)`
entry? -/
def roleHasEntry (R : Role) (a : PermissionAction) (r : PermissionResource) :
    Bool :=
  R.permissions.any (fun p => p.action == a && p.resource == r)

/-- Counterexample to C8: the claim says the seeded Developer role holds
DEPLOY on TEMPLATE (and on PIPELINE), but `initializeDefaultRoles` grants
DEPLOY on DESIGN only, so the seeded Developer role has no
`(DEPLOY, TEMPLATE)` entry. -/
theorem defaultRoles_developer_deploy_counterexample :
    claimedDeveloperGrant PermissionAction.DEPLOY PermissionResource.TEMPLATE
        = true ∧
    (defaultRoles.find? (fun R => R.name == "Developer")).map
        (fun R => roleHasEntry R PermissionAction.DEPLOY
          PermissionResource.TEMPLATE) = some false := by
  decide

/-- C8 (amended): `initializeDefaultRoles` seeds exactly three system
roles; Admin holds exactly ADMIN on ORGANIZATION; Developer holds exactly
CREATE, READ, UPDATE and DELETE on each of DESIGN, TEMPLATE and PIPELINE,
DEPLOY on DESIGN only, and READ on STATE; Viewer holds exactly READ on
each of DESIGN, TEMPLATE, PIPELINE and STATE. -/
theorem defaultRoles_seeded_permission_sets :
    defaultRoles.length = 3 ∧
    (defaultRoles.map (fun R => R.name)) = ["Admin", "Developer", "Viewer"] ∧
    (defaultRoles.all (fun R => R.isSystem)) = true ∧
    (∀ a : PermissionAction, ∀ r : PermissionResource,
      (defaultRoles.map (fun R => roleHasEntry R a r)) =
        [a == .ADMIN && r == .ORGANIZATION,
         ((a == .CREATE || a == .READ || a == .UPDATE || a == .DELETE) &&
            (r == .DESIGN || r == .TEMPLATE || r == .PIPELINE)) ||
           (a == .DEPLOY && r == .DESIGN) || (a == .READ && r == .STATE),
         a == .READ &&
           (r == .DESIGN || r == .TEMPLATE || r == .PIPELINE ||
            r == .STATE)]) := by
  refine ⟨rfl, rfl, rfl, ?_⟩
  decide

/-! Authentication service (`auth.service`).  bcrypt, JWT signing and TOTP
are modelled as injective constructions; Redis counters carry an explicit
count and optional expiry against a logical clock `now`. -/

/-- bcrypt hash model: deterministic and collision-free, standing in for
`bcrypt.hash(password, 12)`. -/
def bcryptHash (password : String) : String := "bcrypt12$" ++ password

/-- bcrypt comparison model, standing in for `bcrypt.compare`. -/
def bcryptCompare (password hash : String) : Bool := hash == bcryptHash password

/-- The JWT payload signed by `generateTokens`: `{ sub, email }` plus the
issuance counter standing in for the `iat` claim (distinct per issuance). -/
structure JwtPayloadM where
  sub : String
  email : String
  iat : Nat
  deriving DecidableEq, Repr

/-- A signed token: payload plus the signing secret (a signature model in
which verification recovers the payload exactly when the secret matches). -/
structure SignedToken where
  payload : JwtPayloadM
  secret : String
  deriving DecidableEq, Repr

/-- Models `jwtService.sign`. -/
def jwtSign (payload : JwtPayloadM) (secret : String) : SignedToken :=
  { payload := payload, secret := secret }

/-- Models `jwtService.verify`: succeeds exactly when the token was signed
with the given secret. -/
def jwtVerify (tok : SignedToken) (secret : String) : Option JwtPayloadM :=
  if tok.secret == secret then some tok.payload else none

/-- A `refreshToken` table row. -/
structure RefreshTokenRecord where
  id : Nat
  userId : String
  token : SignedToken
  expiresAt : Nat
  isRevoked : Bool
  deriving DecidableEq, Repr

/-- A `user` table row, restricted to the columns `auth.service` reads. -/
structure UserRecord where
  id : String
  email : String
  passwordHash : String
  mfaEnabled : Bool
  mfaSecret : Option String
  isActive : Bool
  lastLoginAt : Option Nat
  deriving DecidableEq, Repr

/-- Symmetric at-rest encryption of MFA secrets as used by `auth.service`
(`encryptionService.encryptSecret`): a reversible tagging model. -/
def encryptSecretM (secret : String) : String := "enc$" ++ secret

/-- Models `encryptionService.decryptSecret`, the inverse of
`encryptSecretM`. -/
def decryptSecretM (ciphertext : String) : String := ciphertext.drop 4

/-- TOTP code for a secret at a 30-second time step, collision-free across
distinct secrets (standing in for HMAC-SHA1 truncation). -/
def totpCode (secret : String) (step : Nat) : String :=
  secret ++ "#" ++ toString step

/-- Models `speakeasy.totp.verify` with `window: 2`: the submitted code
must match the current step or one of the two steps on either side. -/
def totpVerify (secret token : String) (now : Nat) : Bool :=
  let c := now / 30
  [c - 2, c - 1, c, c + 1, c + 2].any (fun k => token == totpCode secret k)

/-- A Redis counter entry: integer value and optional expiry instant. -/
structure CounterEntry where
  count : Nat
  expiresAt : Option Nat
  deriving DecidableEq, Repr

/-- State threaded through the authentication service. -/
structure AuthState where
  users : List UserRecord
  refreshTokens : List RefreshTokenRecord
  counters : List (String × CounterEntry)
  auditLog : List (String × String)
  now : Nat
  tokenCounter : Nat
  secretCounter : Nat
  accessSecret : String
  refreshSecret : String
  deriving Repr

/-- Association-list lookup for the counter store. -/
def counterFind (l : List (String × CounterEntry)) (k : String) :
    Option CounterEntry :=
  (l.find? (fun e => e.fst == k)).map (fun e => e.snd)

/-- Association-list insert/overwrite for the counter store. -/
def counterInsert (l : List (String × CounterEntry)) (k : String)
    (e : CounterEntry) : List (String × CounterEntry) :=
  (k, e) :: l.filter (fun x => x.fst != k)

/-- Is a counter entry still alive at the given instant?  An entry with no
expiry persists; an expired entry behaves as absent (Redis TTL). -/
def counterLive (e : CounterEntry) (now : Nat) : Bool :=
  match e.expiresAt with
  | none => true
  | some t => now < t

/-- Models `redisService.get` on a counter key. -/
def redisGet (s : AuthState) (k : String) : Option Nat :=
  match counterFind s.counters k with
  | some e => if counterLive e s.now then some e.count else none
  | none => none

/-- Models `redisService.incr`: increment a live counter, else start at 1
with no expiry. -/
def redisIncr (s : AuthState) (k : String) : AuthState :=
  match counterFind s.counters k with
  | some e =>
    if counterLive e s.now then
      { s with counters := counterInsert s.counters k
                 { e with count := e.count + 1 } }
    else
      { s with counters := counterInsert s.counters k
                 { count := 1, expiresAt := none } }
  | none =>
    { s with counters := counterInsert s.counters k
               { count := 1, expiresAt := none } }

/-- Models `redisService.expire`: refresh the TTL of a live key; an absent
or expired key is untouched. -/
def redisExpire (s : AuthState) (k : String) (ttl : Nat) : AuthState :=
  match counterFind s.counters k with
  | some e =>
    if counterLive e s.now then
      { s with counters := counterInsert s.counters k
                 { e with expiresAt := some (s.now + ttl) } }
    else s
  | none => s

/-- Models `redisService.del`. -/
def redisDel (s : AuthState) (k : String) : AuthState :=
  { s with counters := s.counters.filter (fun x => x.fst != k) }

/-- The `login_attempts:` key prefix used by the lockout tracker. -/
def attemptKey (identifier : String) : String :=
  "login_attempts:" ++ identifier

/-- The key list `[email] ++ (ipAddress when present)` shared by
`checkRateLimit`, `incrementFailedAttempts` and `resetFailedAttempts`. -/
def attemptKeys (email : String) (ipAddress : Option String) : List String :=
  attemptKey email :: (match ipAddress with
    | some ip => [attemptKey ip]
    | none => [])

/-- Embeds the private `AuthService.checkRateLimit` as a predicate: true
when some identifier's live counter has reached `maxLoginAttempts = 5`
(the source then throws `TooManyAttempts`). -/
def checkRateLimit (s : AuthState) (email : String)
    (ipAddress : Option String) : Bool :=
  (attemptKeys email ipAddress).any (fun k =>
    match redisGet s k with
    | some attempts => decide (5 ≤ attempts)
    | none => false)

/-- Embeds `AuthService.incrementFailedAttempts`: per key, `incr` then
`expire` with the 15-minute lockout duration (900 seconds). -/
def incrementFailedAttempts (s : AuthState) (email : String)
    (ipAddress : Option String) : AuthState :=
  (attemptKeys email ipAddress).foldl
    (fun st k => redisExpire (redisIncr st k) k 900) s

/-- Embeds `AuthService.resetFailedAttempts`: per key, `del`. -/
def resetFailedAttempts (s : AuthState) (email : String)
    (ipAddress : Option String) : AuthState :=
  (attemptKeys email ipAddress).foldl (fun st k => redisDel st k) s

/-- The `user.findUnique({ where: { email } })` lookup. -/
def findUserByEmail (s : AuthState) (email : String) : Option UserRecord :=
  s.users.find? (fun u => u.email == email)

/-- The `user.findUnique({ where: { id } })` lookup. -/
def findUserById (s : AuthState) (userId : String) : Option UserRecord :=
  s.users.find? (fun u => u.id == userId)

/-- Embeds the private `AuthService.cleanupExpiredTokens`: delete the
principal's expired or revoked refresh-token rows. -/
def cleanupExpiredTokens (s : AuthState) (userId : String) : AuthState :=
  { s with refreshTokens := s.refreshTokens.filter (fun r =>
      !(r.userId == userId &&
        (decide (r.expiresAt < s.now) || r.isRevoked))) }

/-- Embeds the private `AuthService.generateTokens`: sign an access and a
refresh token over `{ sub, email }`, persist the refresh-token row with a
7-day expiry, then opportunistically clean up the principal's expired and
revoked rows. -/
def generateTokens (s : AuthState) (user : UserRecord) :
    (SignedToken × SignedToken) × AuthState :=
  let payload : JwtPayloadM :=
    { sub := user.id, email := user.email, iat := s.tokenCounter }
  let accessToken := jwtSign payload s.accessSecret
  let refreshTok := jwtSign payload s.refreshSecret
  let tokenRecord : RefreshTokenRecord :=
    { id := s.tokenCounter, userId := user.id, token := refreshTok,
      expiresAt := s.now + 7 * 86400, isRevoked := false }
  let s1 := { s with refreshTokens := s.refreshTokens ++ [tokenRecord],
                     tokenCounter := s.tokenCounter + 1 }
  ((accessToken, refreshTok), cleanupExpiredTokens s1 user.id)

/-- Embeds `AuthService.updateLastLogin`. -/
def updateLastLogin (s : AuthState) (userId : String) : AuthState :=
  { s with users := s.users.map (fun u =>
      if u.id == userId then { u with lastLoginAt := some s.now } else u) }

/-- Embeds `AuthService.logAuditEvent` (its own catch swallows failures, so
the model is a plain append). -/
def logAuditEvent (s : AuthState) (userId action : String) : AuthState :=
  { s with auditLog := s.auditLog ++ [(action, userId)] }

/-- Typed errors mirroring the distinct exception sites of
`auth.service`. -/
inductive AuthError
  | tooManyAttempts
  | invalidCredentials
  | invalidMfaToken
  | invalidRefreshToken
  | userNotFound
  | mfaAlreadyEnabled
  | mfaNotEnabled
  | invalidPassword
  | incorrectCurrentPassword
  deriving DecidableEq, Repr

/-- Outcome of a login: a token pair, or the MFA challenge response the
source returns with empty tokens and `requiresMfa: true`. -/
inductive LoginOutcome
  | success (accessToken refreshToken : SignedToken)
  | mfaChallenge
  deriving DecidableEq, Repr

/-- The shared tail of a fully verified login: reset failure counters,
issue tokens, update the last-login timestamp, log the audit event. -/
def loginSuccess (s : AuthState) (user : UserRecord) (email : String)
    (ipAddress : Option String) : Except AuthError LoginOutcome × AuthState :=
  let s1 := resetFailedAttempts s email ipAddress
  let ((accessToken, refreshTok), s2) := generateTokens s1 user
  let s3 := updateLastLogin s2 user.id
  let s4 := logAuditEvent s3 user.id "LOGIN"
  (.ok (.success accessToken refreshTok), s4)

/-- Embeds `AuthService.login`: lockout check first, then user lookup and
password verification (each failure increments the counters), then the MFA
branch, then the success tail. -/
def login (s : AuthState) (email password : String)
    (mfaToken : Option String) (ipAddress : Option String) :
    Except AuthError LoginOutcome × AuthState :=
  if checkRateLimit s email ipAddress then (.error .tooManyAttempts, s)
  else
    match findUserByEmail s email with
    | none => (.error .invalidCredentials,
        incrementFailedAttempts s email ipAddress)
    | some user =>
      if !user.isActive then
        (.error .invalidCredentials, incrementFailedAttempts s email ipAddress)
      else if !bcryptCompare password user.passwordHash then
        (.error .invalidCredentials, incrementFailedAttempts s email ipAddress)
      else if user.mfaEnabled then
        match mfaToken with
        | none => (.ok .mfaChallenge, s)
        | some tok =>
          let decryptedSecret := decryptSecretM (user.mfaSecret.getD "")
          if totpVerify decryptedSecret tok s.now then
            loginSuccess s user email ipAddress
          else
            (.error .invalidMfaToken, incrementFailedAttempts s email ipAddress)
      else loginSuccess s user email ipAddress

/-- Embeds `AuthService.refreshToken`: verify the signature, find a live
stored row for the bearer, revoke it, and mint a fresh pair (which also
prunes the principal's expired/revoked rows).  Every failure - bad
signature, missing/revoked/expired row, missing or inactive user - maps to
the same `Invalid refresh token` error via the surrounding catch. -/
def refreshTokenOp (s : AuthState) (tok : SignedToken) :
    Except AuthError (SignedToken × SignedToken) × AuthState :=
  match jwtVerify tok s.refreshSecret with
  | none => (.error .invalidRefreshToken, s)
  | some payload =>
    match s.refreshTokens.find? (fun r =>
        r.token == tok && r.userId == payload.sub && !r.isRevoked &&
        decide (s.now < r.expiresAt)) with
    | none => (.error .invalidRefreshToken, s)
    | some storedToken =>
      match findUserById s storedToken.userId with
      | none => (.error .invalidRefreshToken, s)
      | some user =>
        if !user.isActive then (.error .invalidRefreshToken, s)
        else
          let s1 := { s with refreshTokens := s.refreshTokens.map (fun r =>
              if r.id == storedToken.id then { r with isRevoked := true }
              else r) }
          let (pair, s2) := generateTokens s1 user
          (.ok pair, s2)

/-- Embeds `AuthService.changePassword`: verify the current password, then
store the new hash and revoke every refresh token of the principal. -/
def changePassword (s : AuthState) (userId currentPassword newPassword :
    String) : Except AuthError Unit × AuthState :=
  match findUserById s userId with
  | none => (.error .userNotFound, s)
  | some user =>
    if !bcryptCompare currentPassword user.passwordHash then
      (.error .incorrectCurrentPassword, s)
    else
      let s1 := { s with users := s.users.map (fun (u : UserRecord) =>
          if u.id == userId then { u with passwordHash := bcryptHash newPassword }
          else u) }
      let s2 := { s1 with refreshTokens :=
          s1.refreshTokens.map (fun (r : RefreshTokenRecord) =>
            if r.userId == userId then { r with isRevoked := true } else r) }
      (.ok (), logAuditEvent s2 userId "UPDATE")

/-- Response of `setupMfa`: the fresh base32 secret (also returned as the
manual entry key; the QR code is a rendering of the same secret). -/
structure MfaSetupResponse where
  secret : String
  manualEntryKey : String
  deriving DecidableEq, Repr

/-- The cryptographically random secret stream of
`speakeasy.generateSecret`, modelled as a counter-indexed injective
draw: distinct draws yield distinct secrets. -/
def genSecret (n : Nat) : String := "SECRET" ++ toString n

/-- Embeds `AuthService.setupMfa`: rejects when MFA is already on, else
generates a fresh secret and returns it (nothing is persisted). -/
def setupMfa (s : AuthState) (userId : String) :
    Except AuthError MfaSetupResponse × AuthState :=
  match findUserById s userId with
  | none => (.error .userNotFound, s)
  | some user =>
    if user.mfaEnabled then (.error .mfaAlreadyEnabled, s)
    else
      let secret := genSecret s.secretCounter
      (.ok { secret := secret, manualEntryKey := secret },
        { s with secretCounter := s.secretCounter + 1 })

/-- Embeds `AuthService.enableMfa` exactly as written: it generates a NEW
random secret (independent of any earlier `setupMfa` call), verifies the
submitted code against that new secret, and on success encrypts and
persists it and flips the flag. -/
def enableMfa (s : AuthState) (userId token : String) :
    Except AuthError Unit × AuthState :=
  match findUserById s userId with
  | none => (.error .userNotFound, s)
  | some user =>
    if user.mfaEnabled then (.error .mfaAlreadyEnabled, s)
    else
      let secret := genSecret s.secretCounter
      let s1 := { s with secretCounter := s.secretCounter + 1 }
      if totpVerify secret token s1.now then
        let s2 := { s1 with users := s1.users.map (fun u =>
            if u.id == userId then
              { u with mfaEnabled := true,
                       mfaSecret := some (encryptSecretM secret) }
            else u) }
        (.ok (), logAuditEvent s2 userId "UPDATE")
      else (.error .invalidMfaToken, s1)

/-! Helper lemmas about the counter store. -/

/-- A `find?` over a filter that only removes elements failing the
predicate is the `find?` over the original list. -/
theorem find_filter_of_imp {α : Type} (l : List α) (p q : α → Bool)
    (h : ∀ x, p x = true → q x = true) :
    (l.filter q).find? p = l.find? p := by
  induction l with
  | nil => rfl
  | cons a t ih =>
    cases hq : q a with
    | true =>
      rw [List.filter_cons_of_pos hq]
      cases hp : p a with
      | true => rw [List.find?_cons_of_pos _ hp, List.find?_cons_of_pos _ hp]
      | false =>
        rw [List.find?_cons_of_neg _ (by simp [hp]),
          List.find?_cons_of_neg _ (by simp [hp]), ih]
    | false =>
      have hp : p a = false := by
        cases hpa : p a with
        | true => exact absurd (h a hpa) (by simp [hq])
        | false => rfl
      rw [List.filter_cons_of_neg (by simp [hq]),
        List.find?_cons_of_neg _ (by simp [hp]), ih]

/-- Inserting then looking up the same key yields the inserted entry. -/
theorem counterFind_insert_self (l : List (String × CounterEntry))
    (k : String) (e : CounterEntry) :
    counterFind (counterInsert l k e) k = some e := by
  simp [counterFind, counterInsert, List.find?_cons_of_pos]

/-- Inserting under one key does not affect lookups of another key. -/
theorem counterFind_insert_other (l : List (String × CounterEntry))
    (k k2 : String) (e : CounterEntry) (h : k2 ≠ k) :
    counterFind (counterInsert l k e) k2 = counterFind l k2 := by
  unfold counterFind counterInsert
  rw [List.find?_cons_of_neg _ (by simp [Ne.symm h]),
    find_filter_of_imp l _ _ (fun x hx => by
      have : x.fst = k2 := by simpa using hx
      simp [this, h])]

/-- Re-inserting under the same key overwrites the earlier insert. -/
theorem counterInsert_insert_same (l : List (String × CounterEntry))
    (k : String) (e1 e2 : CounterEntry) :
    counterInsert (counterInsert l k e1) k e2 = counterInsert l k e2 := by
  unfold counterInsert
  simp [List.filter_filter]

/-- Deleting a key makes its lookup fail. -/
theorem counterFind_filter_self (l : List (String × CounterEntry))
    (k : String) :
    counterFind (l.filter (fun x => x.fst != k)) k = none := by
  unfold counterFind
  rw [List.find?_eq_none.mpr]
  · rfl
  · intro x hx
    have := (List.mem_filter.mp hx).2
    simp only [bne_iff_ne, ne_eq] at this
    simp [this]

/-- Deleting one key does not affect lookups of another key. -/
theorem counterFind_filter_other (l : List (String × CounterEntry))
    (k k2 : String) (h : k2 ≠ k) :
    counterFind (l.filter (fun x => x.fst != k)) k2 = counterFind l k2 := by
  unfold counterFind
  rw [find_filter_of_imp l _ _ (fun x hx => by
    have : x.fst = k2 := by simpa using hx
    simp [this, h])]

/-- One `incr`-then-`expire` round on a key: the live count goes up by one
and the expiry is refreshed to `now + 900`; nothing else changes. -/
theorem incrExpire_spec (s : AuthState) (k : String) :
    redisExpire (redisIncr s k) k 900 =
      { s with counters := counterInsert s.counters k
                 (CounterEntry.mk ((redisGet s k).getD 0 + 1)
                   (some (s.now + 900))) } := by
  unfold redisIncr redisGet
  cases hf : counterFind s.counters k with
  | none =>
    simp only [hf]
    unfold redisExpire
    simp [counterFind_insert_self, counterLive, counterInsert_insert_same]
  | some e =>
    cases hlive : counterLive e s.now with
    | true =>
      simp only [hf, hlive, if_true]
      unfold redisExpire
      have hlive2 :
          counterLive (CounterEntry.mk (e.count + 1) e.expiresAt) s.now =
            true := hlive
      simp [counterFind_insert_self, hlive2, counterInsert_insert_same]
    | false =>
      simp only [hf, hlive, Bool.false_eq_true, if_false]
      unfold redisExpire
      simp [counterFind_insert_self, counterLive, counterInsert_insert_same]

/-- One failed login attempt (wrong password), viewed as a state
transformer. -/
def failedLoginStep (email wrongPw : String) (ip : Option String)
    (s : AuthState) : AuthState :=
  (login s email wrongPw none ip).snd

/-- n consecutive failed login attempts. -/
def failIter (email wrongPw : String) (ip : Option String) (s : AuthState) :
    Nat → AuthState
  | 0 => s
  | n + 1 => failedLoginStep email wrongPw ip
      (failIter email wrongPw ip s n)

/-- A login with a wrong password (user found and active, not rate
limited) returns `invalidCredentials` and increments the failure
counters. -/
theorem login_failed_spec (s : AuthState) (u : UserRecord)
    (email wrongPw : String) (ip : Option String)
    (hrate : checkRateLimit s email ip = false)
    (hfind : findUserByEmail s email = some u)
    (hactive : u.isActive = true)
    (hwrong : bcryptCompare wrongPw u.passwordHash = false) :
    login s email wrongPw none ip =
      (Except.error AuthError.invalidCredentials,
       incrementFailedAttempts s email ip) := by
  unfold login
  simp [hrate, hfind, hactive, hwrong]

/-- A fully verified login (user found and active, correct password, MFA
off, not rate limited) succeeds and runs the success tail: counter reset,
token issuance, last-login update, audit append. -/
theorem login_success_spec (s : AuthState) (u : UserRecord)
    (email pw : String) (ip : Option String)
    (hrate : checkRateLimit s email ip = false)
    (hfind : findUserByEmail s email = some u)
    (hactive : u.isActive = true)
    (hpw : bcryptCompare pw u.passwordHash = true)
    (hmfa : u.mfaEnabled = false) :
    login s email pw none ip =
      (Except.ok (LoginOutcome.success
          (generateTokens (resetFailedAttempts s email ip) u).fst.fst
          (generateTokens (resetFailedAttempts s email ip) u).fst.snd),
       logAuditEvent
         (updateLastLogin
           (generateTokens (resetFailedAttempts s email ip) u).snd u.id)
         u.id "LOGIN") := by
  unfold login loginSuccess
  simp [hrate, hfind, hactive, hpw, hmfa]

/-- Both failure counters go up by one (with refreshed TTL) on a failed
attempt with an origin address. -/
theorem incrementFailedAttempts_spec (s : AuthState) (email ip : String)
    (hne : attemptKey ip ≠ attemptKey email) :
    incrementFailedAttempts s email (some ip) =
      { s with counters :=
                 counterInsert
                   (counterInsert s.counters (attemptKey email)
                     (CounterEntry.mk
                       ((redisGet s (attemptKey email)).getD 0 + 1)
                       (some (s.now + 900))))
                   (attemptKey ip)
                   (CounterEntry.mk ((redisGet s (attemptKey ip)).getD 0 + 1)
                     (some (s.now + 900))) } := by
  unfold incrementFailedAttempts attemptKeys
  simp only [List.foldl]
  rw [incrExpire_spec, incrExpire_spec]
  have hget : redisGet
      { s with counters :=
                 counterInsert s.counters (attemptKey email)
                   (CounterEntry.mk
                     ((redisGet s (attemptKey email)).getD 0 + 1)
                     (some (s.now + 900))) } (attemptKey ip) =
      redisGet s (attemptKey ip) := by
    unfold redisGet
    rw [counterFind_insert_other _ _ _ _ hne]
  rw [hget]

/-- Resetting deletes both counter entries. -/
theorem resetFailedAttempts_spec (s : AuthState) (email ip : String) :
    resetFailedAttempts s email (some ip) =
      { s with counters :=
                 (s.counters.filter
                   (fun x => x.fst != attemptKey email)).filter
                     (fun x => x.fst != attemptKey ip) } := rfl

/-- Token issuance does not touch the counters. -/
theorem generateTokens_counters (s : AuthState) (u : UserRecord) :
    (generateTokens s u).snd.counters = s.counters := rfl

/-- Token issuance does not touch the clock. -/
theorem generateTokens_now (s : AuthState) (u : UserRecord) :
    (generateTokens s u).snd.now = s.now := rfl

/-- Token issuance does not touch the user table. -/
theorem generateTokens_users (s : AuthState) (u : UserRecord) :
    (generateTokens s u).snd.users = s.users := rfl

/-- Invariant of consecutive failed logins from a clean-counter state
within the lockout window (fixed clock): the user table and clock are
untouched and, after `n` failures (n at most 5), both counters read `n`
with their TTL refreshed to `now + 900`. -/
theorem failIter_spec (email wrongPw ip : String) (u : UserRecord)
    (s : AuthState)
    (husers : s.users = [u]) (hemail : u.email = email)
    (hactive : u.isActive = true)
    (hwrong : bcryptCompare wrongPw u.passwordHash = false)
    (he : counterFind s.counters (attemptKey email) = none)
    (hi : counterFind s.counters (attemptKey ip) = none)
    (hne : attemptKey ip ≠ attemptKey email) :
    ∀ n, n ≤ 5 →
      (failIter email wrongPw (some ip) s n).users = s.users ∧
      (failIter email wrongPw (some ip) s n).now = s.now ∧
      counterFind (failIter email wrongPw (some ip) s n).counters
          (attemptKey email) =
        (if n = 0 then none
         else some (CounterEntry.mk n (some (s.now + 900)))) ∧
      counterFind (failIter email wrongPw (some ip) s n).counters
          (attemptKey ip) =
        (if n = 0 then none
         else some (CounterEntry.mk n (some (s.now + 900)))) := by
  intro n
  induction n with
  | zero =>
    intro _
    exact ⟨rfl, rfl, by simpa using he, by simpa using hi⟩
  | succ n ih =>
    intro hn
    obtain ⟨ihUsers, ihNow, ihE, ihI⟩ := ih (Nat.le_of_succ_le hn)
    set sn := failIter email wrongPw (some ip) s n with hsn
    have hgetE : redisGet sn (attemptKey email) =
        (if n = 0 then none else some n) := by
      unfold redisGet
      rw [ihE]
      by_cases hn0 : n = 0
      · simp [hn0]
      · simp only [hn0, if_false]
        rw [ihNow]
        simp [counterLive]
    have hgetI : redisGet sn (attemptKey ip) =
        (if n = 0 then none else some n) := by
      unfold redisGet
      rw [ihI]
      by_cases hn0 : n = 0
      · simp [hn0]
      · simp only [hn0, if_false]
        rw [ihNow]
        simp [counterLive]
    have hlt : n < 5 := Nat.lt_of_succ_le hn
    have hrate : checkRateLimit sn email (some ip) = false := by
      unfold checkRateLimit attemptKeys
      simp only [List.any_cons, List.any_nil, Bool.or_false]
      rw [hgetE, hgetI]
      by_cases hn0 : n = 0
      · simp [hn0]
      · simp only [hn0, if_false]
        simp [Nat.not_le.mpr hlt]
    have hfind : findUserByEmail sn email = some u := by
      unfold findUserByEmail
      rw [ihUsers, husers]
      simp [List.find?, hemail]
    have hstep : failIter email wrongPw (some ip) s (n + 1) =
        incrementFailedAttempts sn email (some ip) := by
      show failedLoginStep email wrongPw (some ip) sn =
        incrementFailedAttempts sn email (some ip)
      unfold failedLoginStep
      rw [login_failed_spec sn u email wrongPw (some ip) hrate hfind hactive
        hwrong]
    have hgdE : (redisGet sn (attemptKey email)).getD 0 = n := by
      rw [hgetE]
      by_cases hn0 : n = 0
      · simp [hn0]
      · simp [hn0]
    have hgdI : (redisGet sn (attemptKey ip)).getD 0 = n := by
      rw [hgetI]
      by_cases hn0 : n = 0
      · simp [hn0]
      · simp [hn0]
    have hcounters : (failIter email wrongPw (some ip) s (n + 1)).counters =
        counterInsert
          (counterInsert sn.counters (attemptKey email)
            (CounterEntry.mk (n + 1) (some (s.now + 900))))
          (attemptKey ip)
          (CounterEntry.mk (n + 1) (some (s.now + 900))) := by
      rw [hstep, incrementFailedAttempts_spec sn email ip hne]
      show counterInsert
          (counterInsert sn.counters (attemptKey email)
            (CounterEntry.mk ((redisGet sn (attemptKey email)).getD 0 + 1)
              (some (sn.now + 900))))
          (attemptKey ip)
          (CounterEntry.mk ((redisGet sn (attemptKey ip)).getD 0 + 1)
            (some (sn.now + 900))) = _
      rw [hgdE, hgdI, ihNow]
    have husersNext : (failIter email wrongPw (some ip) s (n + 1)).users =
        sn.users := by
      rw [hstep, incrementFailedAttempts_spec sn email ip hne]
    have hnowNext : (failIter email wrongPw (some ip) s (n + 1)).now =
        sn.now := by
      rw [hstep, incrementFailedAttempts_spec sn email ip hne]
    refine ⟨by rw [husersNext, ihUsers], by rw [hnowNext, ihNow], ?_, ?_⟩
    · rw [hcounters, counterFind_insert_other _ _ _ _ (Ne.symm hne),
        counterFind_insert_self]
      simp
    · rw [hcounters, counterFind_insert_self]
      simp

/-- C4: from a clean state, five consecutive failed logins for an email
(within the lockout window) drive that email's counter to the threshold 5,
so the sixth attempt fails with `TooManyAttempts` even though it submits
the correct password; and once the 15-minute TTL has elapsed, a correct
login succeeds. -/
theorem login_lockout_after_five_failures (email wrongPw correctPw ip :
    String) (u : UserRecord) (s : AuthState)
    (husers : s.users = [u]) (hemail : u.email = email)
    (hactive : u.isActive = true) (hmfa : u.mfaEnabled = false)
    (hhash : u.passwordHash = bcryptHash correctPw)
    (hwrong : bcryptCompare wrongPw u.passwordHash = false)
    (he : counterFind s.counters (attemptKey email) = none)
    (hi : counterFind s.counters (attemptKey ip) = none)
    (hne : attemptKey ip ≠ attemptKey email) :
    redisGet (failIter email wrongPw (some ip) s 5) (attemptKey email) =
      some 5 ∧
    (login (failIter email wrongPw (some ip) s 5) email correctPw none
        (some ip)).fst = Except.error AuthError.tooManyAttempts ∧
    (∃ A R, (login
        { failIter email wrongPw (some ip) s 5 with now := s.now + 900 }
        email correctPw none (some ip)).fst =
      Except.ok (LoginOutcome.success A R)) := by
  obtain ⟨hU, hN, hE, hI⟩ :=
    failIter_spec email wrongPw ip u s husers hemail hactive hwrong he hi
      hne 5 (Nat.le_refl 5)
  set s5 := failIter email wrongPw (some ip) s 5 with hs5
  have hget5E : redisGet s5 (attemptKey email) = some 5 := by
    unfold redisGet
    rw [hE]
    simp only [OfNat.ofNat_ne_zero, if_false]
    rw [hN]
    simp [counterLive]
  have hget5I : redisGet s5 (attemptKey ip) = some 5 := by
    unfold redisGet
    rw [hI]
    simp only [OfNat.ofNat_ne_zero, if_false]
    rw [hN]
    simp [counterLive]
  have hrate5 : checkRateLimit s5 email (some ip) = true := by
    unfold checkRateLimit attemptKeys
    simp [hget5E]
  refine ⟨hget5E, ?_, ?_⟩
  · unfold login
    rw [hrate5]
    rfl
  · set s6 : AuthState := { s5 with now := s.now + 900 } with hs6
    have hcE : counterFind s6.counters (attemptKey email) =
        some (CounterEntry.mk 5 (some (s.now + 900))) := by
      show counterFind s5.counters (attemptKey email) = _
      rw [hE]
      simp
    have hcI : counterFind s6.counters (attemptKey ip) =
        some (CounterEntry.mk 5 (some (s.now + 900))) := by
      show counterFind s5.counters (attemptKey ip) = _
      rw [hI]
      simp
    have hdeadE : redisGet s6 (attemptKey email) = none := by
      unfold redisGet
      rw [hcE]
      simp [counterLive]
    have hdeadI : redisGet s6 (attemptKey ip) = none := by
      unfold redisGet
      rw [hcI]
      simp [counterLive]
    have hrate6 : checkRateLimit s6 email (some ip) = false := by
      unfold checkRateLimit attemptKeys
      simp [hdeadE, hdeadI]
    have hfind6 : findUserByEmail s6 email = some u := by
      unfold findUserByEmail
      show List.find? _ s5.users = _
      rw [hU, husers]
      simp [List.find?, hemail]
    have hpw : bcryptCompare correctPw u.passwordHash = true := by
      rw [hhash]
      simp [bcryptCompare]
    rw [login_success_spec s6 u email correctPw (some ip) hrate6 hfind6
      hactive hpw hmfa]
    exact ⟨_, _, rfl⟩

/-- Concrete user for the authentication witnesses. -/
def authWitnessUser : UserRecord :=
  { id := "u1", email := "bob@example.com",
    passwordHash := bcryptHash "correct-horse", mfaEnabled := false,
    mfaSecret := none, isActive := true, lastLoginAt := none }

/-- Concrete clean authentication state for the witnesses. -/
def authWitnessState : AuthState :=
  { users := [authWitnessUser], refreshTokens := [], counters := [],
    auditLog := [], now := 1000, tokenCounter := 0, secretCounter := 0,
    accessSecret := "access-secret", refreshSecret := "refresh-secret" }

/-- Witness for C4 at a concrete state: five wrong-password attempts lock
the account, the sixth correct attempt is rejected, and after the TTL a
correct login succeeds. -/
theorem login_lockout_after_five_failures_witness :
    redisGet (failIter "bob@example.com" "hunter2" (some "203.0.113.1")
        authWitnessState 5) (attemptKey "bob@example.com") = some 5 ∧
    (login (failIter "bob@example.com" "hunter2" (some "203.0.113.1")
        authWitnessState 5) "bob@example.com" "correct-horse" none
        (some "203.0.113.1")).fst = Except.error AuthError.tooManyAttempts ∧
    (∃ A R, (login
        { failIter "bob@example.com" "hunter2" (some "203.0.113.1")
            authWitnessState 5 with now := authWitnessState.now + 900 }
        "bob@example.com" "correct-horse" none (some "203.0.113.1")).fst =
      Except.ok (LoginOutcome.success A R)) :=
  login_lockout_after_five_failures "bob@example.com" "hunter2"
    "correct-horse" "203.0.113.1" authWitnessUser authWitnessState
    rfl rfl rfl rfl rfl (by decide) rfl rfl (by decide)

/-- C5: a fully successful login after `N < 5` failures resets both
failure counters to absent, and `M < 5` further failures after the success
do not reach the lockout threshold: the rate-limit check still passes. -/
theorem login_success_resets_failure_counters (email wrongPw correctPw ip :
    String) (u : UserRecord) (s : AuthState) (N M : Nat)
    (hNlt : N < 5) (hMlt : M < 5)
    (husers : s.users = [u]) (hemail : u.email = email)
    (hactive : u.isActive = true) (hmfa : u.mfaEnabled = false)
    (hhash : u.passwordHash = bcryptHash correctPw)
    (hwrong : bcryptCompare wrongPw u.passwordHash = false)
    (he : counterFind s.counters (attemptKey email) = none)
    (hi : counterFind s.counters (attemptKey ip) = none)
    (hne : attemptKey ip ≠ attemptKey email) :
    (∃ A R, (login (failIter email wrongPw (some ip) s N) email correctPw
        none (some ip)).fst = Except.ok (LoginOutcome.success A R)) ∧
    counterFind (login (failIter email wrongPw (some ip) s N) email
        correctPw none (some ip)).snd.counters (attemptKey email) = none ∧
    counterFind (login (failIter email wrongPw (some ip) s N) email
        correctPw none (some ip)).snd.counters (attemptKey ip) = none ∧
    checkRateLimit
      (failIter email wrongPw (some ip)
        (login (failIter email wrongPw (some ip) s N) email correctPw none
          (some ip)).snd M)
      email (some ip) = false := by
  obtain ⟨hU, hNow, hE, hI⟩ :=
    failIter_spec email wrongPw ip u s husers hemail hactive hwrong he hi
      hne N (Nat.le_of_lt hNlt)
  set sN := failIter email wrongPw (some ip) s N with hsN
  have hrate : checkRateLimit sN email (some ip) = false := by
    unfold checkRateLimit attemptKeys redisGet
    simp only [List.any_cons, List.any_nil, Bool.or_false]
    rw [hE, hI]
    by_cases hn0 : N = 0
    · simp [hn0]
    · simp only [hn0, if_false]
      rw [hNow]
      simp [counterLive, Nat.not_le.mpr hNlt]
  have hfind : findUserByEmail sN email = some u := by
    unfold findUserByEmail
    rw [hU, husers]
    simp [List.find?, hemail]
  have hpw : bcryptCompare correctPw u.passwordHash = true := by
    rw [hhash]
    simp [bcryptCompare]
  have hlogin := login_success_spec sN u email correctPw (some ip) hrate
    hfind hactive hpw hmfa
  have hcounters : (login sN email correctPw none (some ip)).snd.counters =
      ((sN.counters.filter (fun x => x.fst != attemptKey email)).filter
        (fun x => x.fst != attemptKey ip)) := by
    rw [hlogin]
    rfl
  have hSE : counterFind (login sN email correctPw none
      (some ip)).snd.counters (attemptKey email) = none := by
    rw [hcounters, counterFind_filter_other _ _ _ (Ne.symm hne),
      counterFind_filter_self]
  have hSI : counterFind (login sN email correctPw none
      (some ip)).snd.counters (attemptKey ip) = none := by
    rw [hcounters, counterFind_filter_self]
  have hSusers : (login sN email correctPw none (some ip)).snd.users =
      [{ u with lastLoginAt := some sN.now }] := by
    rw [hlogin]
    show (sN.users.map _) = _
    rw [hU, husers]
    simp [List.map]
    rfl
  refine ⟨⟨_, _, by rw [hlogin]⟩, hSE, hSI, ?_⟩
  obtain ⟨h2U, h2Now, h2E, h2I⟩ :=
    failIter_spec email wrongPw ip ({ u with lastLoginAt := some sN.now })
      (login sN email correctPw none (some ip)).snd hSusers hemail hactive
      hwrong hSE hSI hne M (Nat.le_of_lt hMlt)
  unfold checkRateLimit attemptKeys redisGet
  simp only [List.any_cons, List.any_nil, Bool.or_false]
  rw [h2E, h2I]
  by_cases hm0 : M = 0
  · simp [hm0]
  · simp only [hm0, if_false]
    rw [h2Now]
    simp [counterLive, Nat.not_le.mpr hMlt]

/-- Witness for C5 at a concrete state with 3 failures before the
successful login and 2 failures after it. -/
theorem login_success_resets_failure_counters_witness :
    (∃ A R, (login (failIter "bob@example.com" "hunter2"
        (some "203.0.113.1") authWitnessState 3) "bob@example.com"
        "correct-horse" none (some "203.0.113.1")).fst =
      Except.ok (LoginOutcome.success A R)) ∧
    counterFind (login (failIter "bob@example.com" "hunter2"
        (some "203.0.113.1") authWitnessState 3) "bob@example.com"
        "correct-horse" none (some "203.0.113.1")).snd.counters
      (attemptKey "bob@example.com") = none ∧
    counterFind (login (failIter "bob@example.com" "hunter2"
        (some "203.0.113.1") authWitnessState 3) "bob@example.com"
        "correct-horse" none (some "203.0.113.1")).snd.counters
      (attemptKey "203.0.113.1") = none ∧
    checkRateLimit
      (failIter "bob@example.com" "hunter2" (some "203.0.113.1")
        (login (failIter "bob@example.com" "hunter2" (some "203.0.113.1")
          authWitnessState 3) "bob@example.com" "correct-horse" none
          (some "203.0.113.1")).snd 2)
      "bob@example.com" (some "203.0.113.1") = false :=
  login_success_resets_failure_counters "bob@example.com" "hunter2"
    "correct-horse" "203.0.113.1" authWitnessUser authWitnessState 3 2
    (by decide) (by decide) rfl rfl rfl rfl rfl (by decide) rfl rfl
    (by decide)

/-- A `find?` whose predicate holds of a member that is the unique
satisfier returns exactly that member. -/
theorem find_of_unique_mem {α : Type} (l : List α) (p : α → Bool) (a : α)
    (ha : p a = true) (hmem : a ∈ l)
    (huniq : ∀ b ∈ l, p b = true → b = a) :
    l.find? p = some a := by
  induction l with
  | nil => cases hmem
  | cons x t ih =>
    by_cases hx : p x = true
    · rw [List.find?_cons_of_pos _ hx, huniq x (List.mem_cons_self x t) hx]
    · rw [List.find?_cons_of_neg _ (by simp [hx])]
      apply ih
      · cases List.mem_cons.mp hmem with
        | inl h =>
          subst h
          exact absurd ha hx
        | inr h => exact h
      · intro b hb hpb
        exact huniq b (List.mem_cons_of_mem x hb) hpb

/-- Signing with the stored refresh secret makes verification recover the
payload. -/
theorem jwtVerify_of_secret (tok : SignedToken) (secret : String)
    (h : tok.secret = secret) : jwtVerify tok secret = some tok.payload := by
  unfold jwtVerify
  simp [h]

/-- C3: redeeming a stored, live refresh token succeeds exactly once: the
redemption returns a fresh pair whose refresh token differs from the one
redeemed, and redeeming the same token again on the resulting state fails
with the invalid-token error; a token whose signature is invalid, or for
which no live (present, unrevoked, unexpired) row exists, fails with the
same error. -/
theorem refreshToken_rotation (s : AuthState) (tok : SignedToken) :
    (∀ recTok u, recTok ∈ s.refreshTokens →
      recTok.token = tok →
      tok.secret = s.refreshSecret →
      tok.payload.sub = recTok.userId →
      recTok.isRevoked = false →
      s.now < recTok.expiresAt →
      findUserById s recTok.userId = some u →
      u.isActive = true →
      (∀ b ∈ s.refreshTokens, b.token = tok → b = recTok) →
      tok.payload.iat ≠ s.tokenCounter →
      (∃ A R, (refreshTokenOp s tok).fst = Except.ok (A, R) ∧ R ≠ tok) ∧
        (refreshTokenOp (refreshTokenOp s tok).snd tok).fst =
          Except.error AuthError.invalidRefreshToken) ∧
    (tok.secret ≠ s.refreshSecret →
      (refreshTokenOp s tok).fst =
        Except.error AuthError.invalidRefreshToken) ∧
    (tok.secret = s.refreshSecret →
      s.refreshTokens.find? (fun r =>
        r.token == tok && r.userId == tok.payload.sub && !r.isRevoked &&
        decide (s.now < r.expiresAt)) = none →
      (refreshTokenOp s tok).fst =
        Except.error AuthError.invalidRefreshToken) := by
  refine ⟨?_, ?_, ?_⟩
  · intro recTok u hmem hrtok hsec hsub hrev hexp hu hactive huniq hiat
    have hv : jwtVerify tok s.refreshSecret = some tok.payload :=
      jwtVerify_of_secret tok s.refreshSecret hsec
    have hp : (fun r : RefreshTokenRecord =>
        r.token == tok && r.userId == tok.payload.sub && !r.isRevoked &&
        decide (s.now < r.expiresAt)) recTok = true := by
      simp [hrtok, hsub, hrev, hexp]
    have hfind : s.refreshTokens.find? (fun r =>
        r.token == tok && r.userId == tok.payload.sub && !r.isRevoked &&
        decide (s.now < r.expiresAt)) = some recTok := by
      apply find_of_unique_mem _ _ recTok hp hmem
      intro b hb hpb
      apply huniq b hb
      have : (b.token == tok) = true := by
        simp only [Bool.and_eq_true] at hpb
        exact hpb.1.1.1
      exact eq_of_beq this
    have hrun : refreshTokenOp s tok =
        (Except.ok (generateTokens
            { s with refreshTokens := s.refreshTokens.map (fun r =>
                if r.id == recTok.id then { r with isRevoked := true }
                else r) } u).fst,
         (generateTokens
            { s with refreshTokens := s.refreshTokens.map (fun r =>
                if r.id == recTok.id then { r with isRevoked := true }
                else r) } u).snd) := by
      simp only [refreshTokenOp, hv, hfind, hu, hactive, Bool.not_true,
        Bool.false_eq_true, if_false]
    set s1 : AuthState :=
      { s with refreshTokens := s.refreshTokens.map (fun r =>
          if r.id == recTok.id then { r with isRevoked := true }
          else r) } with hs1
    have hRne : (generateTokens s1 u).fst.snd ≠ tok := by
      intro hcontra
      apply hiat
      have : tok.payload.iat = (generateTokens s1 u).fst.snd.payload.iat := by
        rw [hcontra]
      rw [this]
      rfl
    constructor
    · exact ⟨(generateTokens s1 u).fst.fst, (generateTokens s1 u).fst.snd,
        by rw [hrun], hRne⟩
    · rw [hrun]
      show (refreshTokenOp (generateTokens s1 u).snd tok).fst = _
      have hv2 : jwtVerify tok (generateTokens s1 u).snd.refreshSecret =
          some tok.payload := jwtVerify_of_secret tok _ hsec
      have hnone : (generateTokens s1 u).snd.refreshTokens.find? (fun r =>
          r.token == tok && r.userId == tok.payload.sub && !r.isRevoked &&
          decide ((generateTokens s1 u).snd.now < r.expiresAt)) = none := by
        apply List.find?_eq_none.mpr
        intro x hx
        have hx2 : x ∈ s1.refreshTokens ++
            [RefreshTokenRecord.mk s1.tokenCounter u.id
              (jwtSign (JwtPayloadM.mk u.id u.email s1.tokenCounter)
                s1.refreshSecret)
              (s1.now + 7 * 86400) false] :=
          List.mem_of_mem_filter hx
        intro hcontra
        simp only [Bool.and_eq_true, beq_iff_eq, Bool.not_eq_eq_eq_not,
          Bool.not_true, decide_eq_true_eq] at hcontra
        obtain ⟨⟨⟨hxtok, hxsub⟩, hxrev⟩, hxexp⟩ := hcontra
        cases List.mem_append.mp hx2 with
        | inl hxin =>
          obtain ⟨r2, hr2, hfr2⟩ := List.mem_map.mp hxin
          by_cases hr2tok : r2.token = tok
          · have hr2rec : r2 = recTok := huniq r2 hr2 hr2tok
            subst hr2rec
            rw [if_pos (by simp)] at hfr2
            rw [← hfr2] at hxrev
            simp at hxrev
          · have hxtok2 : x.token = r2.token := by
              by_cases hid : (r2.id == recTok.id) = true
              · rw [if_pos hid] at hfr2
                rw [← hfr2]
              · rw [if_neg hid] at hfr2
                rw [← hfr2]
            rw [hxtok2] at hxtok
            exact hr2tok hxtok
        | inr hxnew =>
          have hxeq : x = RefreshTokenRecord.mk s1.tokenCounter u.id
              (jwtSign (JwtPayloadM.mk u.id u.email s1.tokenCounter)
                s1.refreshSecret)
              (s1.now + 7 * 86400) false := by simpa using hxnew
          apply hRne
          rw [← hxtok, hxeq]
          rfl
      simp only [refreshTokenOp, hv2, hnone]
  · intro hne
    have hvnone : jwtVerify tok s.refreshSecret = none := by
      unfold jwtVerify
      simp [hne]
    simp only [refreshTokenOp, hvnone]
  · intro hsec hnone
    simp only [refreshTokenOp,
      jwtVerify_of_secret tok s.refreshSecret hsec, hnone]

/-- Concrete stored refresh-token row for the C3 witness. -/
def refreshWitnessRecord : RefreshTokenRecord :=
  { id := 0, userId := "u1",
    token := { payload := { sub := "u1", email := "bob@example.com",
                            iat := 5 },
               secret := "refresh-secret" },
    expiresAt := 2000, isRevoked := false }

/-- Concrete authentication state holding one live refresh token. -/
def refreshWitnessState : AuthState :=
  { users := [authWitnessUser], refreshTokens := [refreshWitnessRecord],
    counters := [], auditLog := [], now := 1000, tokenCounter := 1,
    secretCounter := 0, accessSecret := "access-secret",
    refreshSecret := "refresh-secret" }

/-- Witness for C3 at a concrete state: the stored token redeems once with
a fresh pair and fails on the second redemption. -/
theorem refreshToken_rotation_witness :
    (∃ A R, (refreshTokenOp refreshWitnessState
        refreshWitnessRecord.token).fst = Except.ok (A, R) ∧
      R ≠ refreshWitnessRecord.token) ∧
    (refreshTokenOp
        (refreshTokenOp refreshWitnessState
          refreshWitnessRecord.token).snd
        refreshWitnessRecord.token).fst =
      Except.error AuthError.invalidRefreshToken :=
  (refreshToken_rotation refreshWitnessState
      refreshWitnessRecord.token).1 refreshWitnessRecord authWitnessUser
    (by simp [refreshWitnessState]) rfl rfl rfl rfl (by decide) rfl rfl
    (by decide) (by decide)

/-- A `find?` over a mapped list is the mapped `find?` of the composed
predicate. -/
theorem find_map_comm {α β : Type} (l : List α) (f : α → β) (p : β → Bool) :
    (l.map f).find? p = Option.map f (l.find? (fun x => p (f x))) := by
  induction l with
  | nil => rfl
  | cons a t ih =>
    by_cases h : p (f a) = true
    · rw [List.map_cons, List.find?_cons_of_pos _ h,
        List.find?_cons_of_pos _ (by simpa using h)]
      rfl
    · rw [List.map_cons, List.find?_cons_of_neg _ (by simp [h]),
        List.find?_cons_of_neg _ (by simp [h]), ih]

/-- If no stored row matches the submitted token as live, the refresh
operation rejects it (whether or not the signature verifies). -/
theorem refresh_rejected_of_no_live_match (S : AuthState)
    (tok : SignedToken)
    (h : ∀ x ∈ S.refreshTokens,
      ¬(x.token == tok && x.userId == tok.payload.sub && !x.isRevoked &&
        decide (S.now < x.expiresAt)) = true) :
    (refreshTokenOp S tok).fst =
      Except.error AuthError.invalidRefreshToken := by
  by_cases hb : (tok.secret == S.refreshSecret) = true
  · have hv : jwtVerify tok S.refreshSecret = some tok.payload :=
      jwtVerify_of_secret tok _ (eq_of_beq hb)
    have hnone : S.refreshTokens.find? (fun x =>
        x.token == tok && x.userId == tok.payload.sub && !x.isRevoked &&
        decide (S.now < x.expiresAt)) = none :=
      List.find?_eq_none.mpr h
    simp only [refreshTokenOp, hv, hnone]
  · have hvnone : jwtVerify tok S.refreshSecret = none := by
      unfold jwtVerify
      simp only [hb, Bool.false_eq_true, if_false]
    simp only [refreshTokenOp, hvnone]

/-- C6: `changePassword` with a wrong current password fails with the
incorrect-password error and leaves the state (hash and refresh tokens)
untouched; with the right current password it succeeds, stores the new
hash, revokes every refresh token of the principal, and any pre-change
refresh token of that principal is afterwards rejected by the refresh
operation. -/
theorem changePassword_contract (s : AuthState)
    (userId currentPw newPw : String) (u : UserRecord)
    (hu : findUserById s userId = some u)
    (hsub : ∀ r ∈ s.refreshTokens, r.token.payload.sub = r.userId) :
    (bcryptCompare currentPw u.passwordHash = false →
      changePassword s userId currentPw newPw =
        (Except.error AuthError.incorrectCurrentPassword, s)) ∧
    (bcryptCompare currentPw u.passwordHash = true →
      (changePassword s userId currentPw newPw).fst = Except.ok () ∧
      (∀ r ∈ (changePassword s userId currentPw newPw).snd.refreshTokens,
        r.userId = userId → r.isRevoked = true) ∧
      findUserById (changePassword s userId currentPw newPw).snd userId =
        some { u with passwordHash := bcryptHash newPw } ∧
      (∀ r ∈ s.refreshTokens, r.userId = userId →
        (refreshTokenOp (changePassword s userId currentPw newPw).snd
          r.token).fst = Except.error AuthError.invalidRefreshToken)) := by
  constructor
  · intro hpw
    simp only [changePassword, hu, hpw, Bool.not_false, if_true]
  · intro hpw
    have hrun : changePassword s userId currentPw newPw =
        (Except.ok (),
         logAuditEvent
           { s with
              users := s.users.map (fun u0 =>
                if u0.id == userId then
                  { u0 with passwordHash := bcryptHash newPw }
                else u0),
              refreshTokens := s.refreshTokens.map (fun r =>
                if r.userId == userId then { r with isRevoked := true }
                else r) }
           userId "UPDATE") := by
      simp only [changePassword, hu, hpw, Bool.not_true,
        Bool.false_eq_true, if_false]
    have huid : (u.id == userId) = true := by
      have := List.find?_some hu
      exact this
    refine ⟨by rw [hrun], ?_, ?_, ?_⟩
    · intro r hr hruid
      rw [hrun] at hr
      have hr2 : r ∈ s.refreshTokens.map (fun r0 =>
          if r0.userId == userId then { r0 with isRevoked := true }
          else r0) := hr
      obtain ⟨r0, hr0, hfr0⟩ := List.mem_map.mp hr2
      by_cases h0 : (r0.userId == userId) = true
      · rw [if_pos h0] at hfr0
        rw [← hfr0]
      · rw [if_neg h0] at hfr0
        rw [← hfr0] at hruid
        exact absurd (by simp [hruid]) h0
    · have husersS : (changePassword s userId currentPw newPw).snd.users =
          s.users.map (fun u0 =>
            if u0.id == userId then
              { u0 with passwordHash := bcryptHash newPw }
            else u0) := by
        rw [hrun]
        rfl
      unfold findUserById
      rw [husersS, find_map_comm]
      have hpred : (fun x : UserRecord =>
          (if x.id == userId then
            { x with passwordHash := bcryptHash newPw } else x).id ==
            userId) = (fun x : UserRecord => x.id == userId) := by
        funext x
        by_cases hx : (x.id == userId) = true
        · rw [if_pos hx]
        · rw [if_neg hx]
      have hu2 : s.users.find? (fun u0 => u0.id == userId) = some u := hu
      rw [hpred, hu2]
      simp only [Option.map_some']
      rw [if_pos huid]
    · intro r hr hruid
      have hStoks : (changePassword s userId currentPw
          newPw).snd.refreshTokens =
          s.refreshTokens.map (fun r0 =>
            if r0.userId == userId then { r0 with isRevoked := true }
            else r0) := by
        rw [hrun]
        rfl
      have hSnow : (changePassword s userId currentPw newPw).snd.now =
          s.now := by
        rw [hrun]
        rfl
      apply refresh_rejected_of_no_live_match
      intro x hx
      rw [hStoks] at hx
      obtain ⟨r0, hr0, hfr0⟩ := List.mem_map.mp hx
      have hpsub : r.token.payload.sub = userId := by
        rw [hsub r hr, hruid]
      by_cases h0 : (r0.userId == userId) = true
      · rw [if_pos h0] at hfr0
        rw [← hfr0]
        simp
      · rw [if_neg h0] at hfr0
        rw [← hfr0, hpsub]
        simp only [h0, Bool.and_eq_true]
        intro hcontra
        exact absurd hcontra.1.1.2 (by simp [h0])

/-- Witness for C6 at a concrete state: a wrong current password is
rejected without touching the state, and the right one succeeds. -/
theorem changePassword_contract_witness :
    changePassword refreshWitnessState "u1" "wrong-guess" "new-pw" =
      (Except.error AuthError.incorrectCurrentPassword,
       refreshWitnessState) ∧
    (changePassword refreshWitnessState "u1" "correct-horse"
        "new-pw").fst = Except.ok () :=
  ⟨(changePassword_contract refreshWitnessState "u1" "wrong-guess"
      "new-pw" authWitnessUser rfl (by decide)).1 (by decide),
   ((changePassword_contract refreshWitnessState "u1" "correct-horse"
      "new-pw" authWitnessUser rfl (by decide)).2 (by decide)).1⟩

/-- C7 (code bug): `setupMfa` returns a fresh secret to the caller, but
`enableMfa` draws ANOTHER fresh secret and verifies the submitted code
against that one, so a TOTP code computed from the secret returned by
`setupMfa` — at the current step or anywhere in the ±2-step drift
window — is rejected and MFA stays disabled; a code computed from the
internally drawn (never revealed) secret would have been accepted, which
pins the failure on the stray `generateSecret` call in `enableMfa`. -/
theorem setupMfa_enableMfa_roundtrip_fails :
    (setupMfa refreshWitnessState "u1").fst =
      Except.ok { secret := genSecret 0, manualEntryKey := genSecret 0 } ∧
    (enableMfa (setupMfa refreshWitnessState "u1").snd "u1"
        (totpCode (genSecret 0) 31)).fst =
      Except.error AuthError.invalidMfaToken ∧
    (enableMfa (setupMfa refreshWitnessState "u1").snd "u1"
        (totpCode (genSecret 0) 32)).fst =
      Except.error AuthError.invalidMfaToken ∧
    (enableMfa (setupMfa refreshWitnessState "u1").snd "u1"
        (totpCode (genSecret 0) 33)).fst =
      Except.error AuthError.invalidMfaToken ∧
    (enableMfa (setupMfa refreshWitnessState "u1").snd "u1"
        (totpCode (genSecret 0) 34)).fst =
      Except.error AuthError.invalidMfaToken ∧
    (enableMfa (setupMfa refreshWitnessState "u1").snd "u1"
        (totpCode (genSecret 0) 35)).fst =
      Except.error AuthError.invalidMfaToken ∧
    (enableMfa (setupMfa refreshWitnessState "u1").snd "u1"
        (totpCode (genSecret 0) 33)).snd.users =
      refreshWitnessState.users ∧
    (enableMfa (setupMfa refreshWitnessState "u1").snd "u1"
        (totpCode (genSecret 1) 33)).fst = Except.ok () :=
  ⟨rfl, rfl, rfl, rfl, rfl, rfl, rfl, rfl⟩

/-! Encryption service (`encryption.service`).  The source encrypts with
`crypto.createCipher('aes-256-cbc', ...)`: unauthenticated CBC whose key
and IV are both derived from the password (no IV is transmitted), and
whose only integrity check is the PKCS#7 padding validation that
`decipher.final` performs on the FINAL plaintext block.  The model works
at the block level: a ciphertext is the list of its 16-byte blocks
(naturals below 2^128), CBC chaining is explicit XOR, and the AES block
permutation under a fixed key is modelled as XOR with a key-derived
pad — the proofs use only that it is a keyed bijection on blocks, which
the real AES permutation is.  Decryption checks padding on the final
decrypted block only, exactly as the source does, so bit-level tampering
with earlier ciphertext blocks is expressible and is NOT detected. -/

/-- The error values observable from the encryption service: the
configuration errors thrown by `getEncryptionKey`, and the generic wrapped
errors thrown by the `catch` blocks of `encrypt` and `decrypt`. -/
inductive CryptoError
  | configurationError (message : String)
  | encryptionFailed
  | decryptionFailed
  deriving DecidableEq, Repr

/-- Is this error one of the configuration errors? -/
def isConfigurationError : CryptoError → Bool
  | .configurationError _ => true
  | _ => false

/-- Embeds `EncryptionService.getEncryptionKey`: reads the named key from
the environment; a missing key or one whose length is not 64 characters
(32 bytes in hex) raises a configuration error. -/
def getEncryptionKey (cfg : String → Option String) (keyName : String) :
    Except CryptoError String :=
  match cfg keyName with
  | none => Except.error (CryptoError.configurationError
      (keyName ++ " environment variable is required"))
  | some key =>
    if key.length ≠ 64 then
      Except.error (CryptoError.configurationError
        (keyName ++ " must be 64 characters (32 bytes)"))
    else Except.ok key

/-- Key-derived 128-bit pad standing in for the AES-256 block permutation
under the password-derived key: any keyed bijection on 16-byte blocks
supports the mode-level facts proved below. -/
def keyPad (key : String) : Nat :=
  (key.toList.foldl (fun a c => a * 256 + c.toNat) 1) % 2 ^ 128

/-- The IV that `createCipher` derives from the password via
EVP_BytesToKey: never transmitted, recomputed identically on both
sides. -/
def ivOf (key : String) : Nat :=
  (key.toList.foldl (fun a c => a * 256 + c.toNat) 2) % 2 ^ 128

/-- CBC encryption of a block sequence: each cipher block is the block
cipher applied to the plaintext block XOR the previous cipher block
(`prev` starts at the derived IV). -/
def cbcEnc (key : String) (prev : Nat) : List Nat → List Nat
  | [] => []
  | p :: ps =>
    ((p ^^^ prev) ^^^ keyPad key) ::
      cbcEnc key ((p ^^^ prev) ^^^ keyPad key) ps

/-- CBC decryption: each plaintext block is the block cipher inverse of
the cipher block, XOR the previous cipher block. -/
def cbcDec (key : String) (prev : Nat) : List Nat → List Nat
  | [] => []
  | c :: cs => ((c ^^^ keyPad key) ^^^ prev) :: cbcDec key c cs

/-- The full PKCS#7 padding block appended to a block-aligned message:
sixteen bytes each holding the value 16. -/
def padBlock : Nat := (List.range 16).foldl (fun a _ => a * 256 + 16) 0

/-- The PKCS#7 check `decipher.final` performs — a function of the FINAL
plaintext block only: its last byte k must lie in 1..16 and the last k
bytes must all equal k. -/
def padOk (b : Nat) : Bool :=
  decide (1 ≤ b % 256) && decide (b % 256 ≤ 16) &&
    (List.range (b % 256)).all
      (fun i => decide ((b / 256 ^ i) % 256 = b % 256))

/-- Embeds `EncryptionService.encrypt`: its `try/catch` turns ANY inner
error — including the configuration error from `getEncryptionKey` — into
the generic `Encryption failed` error; otherwise it CBC-encrypts the
padded plaintext.  Plaintexts are modelled as their list of 16-byte
blocks, block-aligned, so PKCS#7 appends one full padding block. -/
def encrypt (cfg : String → Option String) (data : List Nat)
    (keyName : String) : Except CryptoError (List Nat) :=
  match getEncryptionKey cfg keyName with
  | Except.error _ => Except.error CryptoError.encryptionFailed
  | Except.ok key => Except.ok (cbcEnc key (ivOf key) (data ++ [padBlock]))

/-- Embeds `EncryptionService.decrypt`: its `try/catch` turns any inner
error — a configuration error from `getEncryptionKey`, an empty input, or
the padding failure `decipher.final` throws — into the generic
`Decryption failed` error.  The ONLY integrity check is the PKCS#7
padding of the final decrypted block, as in the source's unauthenticated
aes-256-cbc; when it passes, the padding is stripped and the remaining
blocks are returned whether or not they were what was encrypted. -/
def decrypt (cfg : String → Option String) (ct : List Nat)
    (keyName : String) : Except CryptoError (List Nat) :=
  match getEncryptionKey cfg keyName with
  | Except.error _ => Except.error CryptoError.decryptionFailed
  | Except.ok key =>
    match (cbcDec key (ivOf key) ct).getLast? with
    | none => Except.error CryptoError.decryptionFailed
    | some lastBlock =>
      if padOk lastBlock then
        Except.ok (cbcDec key (ivOf key) ct).dropLast
      else Except.error CryptoError.decryptionFailed

/-- Bit-level tampering of a ciphertext: XOR a delta into its first
block. -/
def tamperHead (d : Nat) : List Nat → List Nat
  | [] => []
  | c :: cs => (c ^^^ d) :: cs

/-- XOR swap of the two right operands. -/
theorem xor_right_comm (a b c : Nat) : (a ^^^ b) ^^^ c = (a ^^^ c) ^^^ b := by
  rw [Nat.xor_assoc, Nat.xor_comm b c, ← Nat.xor_assoc]

/-- CBC decryption inverts CBC encryption under the same key and chain
value. -/
theorem cbcDec_cbcEnc (key : String) (prev : Nat) (ps : List Nat) :
    cbcDec key prev (cbcEnc key prev ps) = ps := by
  induction ps generalizing prev with
  | nil => rfl
  | cons p ps ih =>
    simp only [cbcEnc, cbcDec, ih, List.cons.injEq, and_true]
    rw [Nat.xor_cancel_right, Nat.xor_cancel_right]

/-- The padding block passes the padding check. -/
theorem padOk_padBlock : padOk padBlock = true := by decide

/-- Tampering the first cipher block of a message of at least two
plaintext blocks garbles the first two plaintext blocks and leaves the
rest — including the final block, the only one the padding check looks
at — untouched. -/
theorem cbcDec_tamperHead (key : String) (c0 d p1 p2 : Nat)
    (rest : List Nat) :
    cbcDec key c0 (tamperHead d (cbcEnc key c0 (p1 :: p2 :: rest))) =
      (p1 ^^^ d) :: (p2 ^^^ d) :: rest := by
  simp only [cbcEnc, tamperHead, cbcDec, cbcDec_cbcEnc, List.cons.injEq]
  refine ⟨?_, ?_, trivial⟩
  · rw [xor_right_comm ((p1 ^^^ c0) ^^^ keyPad key) d (keyPad key),
      Nat.xor_cancel_right, xor_right_comm p1 c0 d, Nat.xor_cancel_right]
  · rw [Nat.xor_cancel_right, ← Nat.xor_assoc, Nat.xor_cancel_right]

/-- A 64-character hex key used by the concrete C9 statements. -/
def witnessKeyHex : String :=
  "0123456789abcdef0123456789abcdef0123456789abcdef0123456789abcdef"

/-- A well-formed configuration carrying `witnessKeyHex` under every
name. -/
def witnessCfg : String → Option String := fun _ => some witnessKeyHex

set_option maxRecDepth 100000 in
/-- Counterexample to C9, refuting both halves of the claim on concrete
inputs: (a) calling `decrypt` with the named key absent yields the
generic `Decryption failed` error, not a configuration error; and
(b) under a well-formed key, a genuine two-block ciphertext tampered in
its first block decrypts WITHOUT error to a plaintext different from the
one encrypted — silently returned garbage, because unauthenticated CBC
only checks the final block's padding. -/
theorem decrypt_missing_key_not_configurationError :
    (decrypt (fun _ => none) [5] "ENCRYPTION_KEY" =
      Except.error CryptoError.decryptionFailed ∧
    isConfigurationError CryptoError.decryptionFailed = false) ∧
    (∃ ct garbage,
      encrypt witnessCfg [1, 2] "ENCRYPTION_KEY" = Except.ok ct ∧
      decrypt witnessCfg (tamperHead 1 ct) "ENCRYPTION_KEY" =
        Except.ok garbage ∧
      garbage ≠ [1, 2]) :=
  ⟨⟨rfl, rfl⟩,
   ⟨cbcEnc witnessKeyHex (ivOf witnessKeyHex) ([1, 2] ++ [padBlock]),
    [0, 3], rfl, rfl, by decide⟩⟩

/-- C9 (amended): a missing or wrong-length named key makes the internal
key lookup fail with a configuration error, but `encrypt` and `decrypt`
catch it and surface only the generic `Encryption failed` / `Decryption
failed` error — the same error an invalid-padding decryption failure
produces, so the configuration case is not distinguishable from the
caller; an untampered ciphertext decrypts back to its plaintext; and,
because aes-256-cbc is unauthenticated and only the final block's PKCS#7
padding is checked, a ciphertext tampered in its first block (any message
of at least two plaintext blocks, any nonzero delta) decrypts without
error to corrupted plaintext — decryption failure is NOT reliably
surfaced, and garbage IS silently returned. -/
theorem encryption_error_taxonomy (cfg : String → Option String)
    (keyName : String) (ct : List Nat) (data : List Nat) :
    ((∃ e, getEncryptionKey cfg keyName = Except.error e) →
      (∃ msg, getEncryptionKey cfg keyName =
        Except.error (CryptoError.configurationError msg)) ∧
      decrypt cfg ct keyName =
        Except.error CryptoError.decryptionFailed ∧
      encrypt cfg data keyName =
        Except.error CryptoError.encryptionFailed) ∧
    (∀ key, getEncryptionKey cfg keyName = Except.ok key →
      encrypt cfg data keyName =
        Except.ok (cbcEnc key (ivOf key) (data ++ [padBlock])) ∧
      decrypt cfg (cbcEnc key (ivOf key) (data ++ [padBlock])) keyName =
        Except.ok data) ∧
    (∀ key d p1 p2 rest, getEncryptionKey cfg keyName = Except.ok key →
      d ≠ 0 →
      decrypt cfg (tamperHead d
          (cbcEnc key (ivOf key) ((p1 :: p2 :: rest) ++ [padBlock])))
        keyName = Except.ok ((p1 ^^^ d) :: (p2 ^^^ d) :: rest) ∧
      (p1 ^^^ d) :: (p2 ^^^ d) :: rest ≠ p1 :: p2 :: rest) := by
  refine ⟨?_, ?_, ?_⟩
  · rintro ⟨e, he⟩
    unfold getEncryptionKey at he
    cases hc : cfg keyName with
    | none =>
      refine ⟨⟨keyName ++ " environment variable is required", ?_⟩, ?_, ?_⟩
      · unfold getEncryptionKey
        rw [hc]
      · unfold decrypt getEncryptionKey
        rw [hc]
      · unfold encrypt getEncryptionKey
        rw [hc]
    | some key =>
      rw [hc] at he
      by_cases hlen : key.length ≠ 64
      · refine ⟨⟨keyName ++ " must be 64 characters (32 bytes)", ?_⟩,
          ?_, ?_⟩
        · unfold getEncryptionKey
          rw [hc]
          simp [hlen]
        · unfold decrypt getEncryptionKey
          rw [hc]
          simp [hlen]
        · unfold encrypt getEncryptionKey
          rw [hc]
          simp [hlen]
      · simp [hlen] at he
  · intro key hok
    constructor
    · simp only [encrypt, hok]
    · simp only [decrypt, hok, cbcDec_cbcEnc, List.getLast?_concat,
        padOk_padBlock, if_true, List.dropLast_concat]
  · intro key d p1 p2 rest hok hd
    have hshape : (p1 ^^^ d) :: (p2 ^^^ d) :: (rest ++ [padBlock]) =
        ((p1 ^^^ d) :: (p2 ^^^ d) :: rest) ++ [padBlock] := rfl
    constructor
    · have hlist : (p1 :: p2 :: rest) ++ [padBlock] =
          p1 :: p2 :: (rest ++ [padBlock]) := rfl
      simp only [decrypt, hok, hlist, cbcDec_tamperHead, hshape,
        List.getLast?_concat, padOk_padBlock, if_true,
        List.dropLast_concat]
    · intro heq
      simp only [List.cons.injEq] at heq
      have hx : p1 ^^^ d = p1 := heq.1
      have h2 : p1 ^^^ (p1 ^^^ d) = p1 ^^^ p1 := by rw [hx]
      rw [Nat.xor_cancel_left, Nat.xor_self] at h2
      exact hd h2

/-- Witness for the amended C9: under a concrete well-formed key, an
untampered ciphertext of `[1, 2]` decrypts back to `[1, 2]`, and the same
ciphertext tampered in its first block decrypts without error to the
garbled blocks. -/
theorem encryption_error_taxonomy_witness :
    decrypt witnessCfg
      (cbcEnc witnessKeyHex (ivOf witnessKeyHex) ([1, 2] ++ [padBlock]))
      "ENCRYPTION_KEY" = Except.ok [1, 2] ∧
    decrypt witnessCfg
      (tamperHead 1 (cbcEnc witnessKeyHex (ivOf witnessKeyHex)
        ((1 :: 2 :: []) ++ [padBlock])))
      "ENCRYPTION_KEY" = Except.ok ((1 ^^^ 1) :: (2 ^^^ 1) :: []) :=
  ⟨((encryption_error_taxonomy witnessCfg "ENCRYPTION_KEY" [] [1, 2]).2.1
      witnessKeyHex rfl).2,
   ((encryption_error_taxonomy witnessCfg "ENCRYPTION_KEY" [] [1, 2]).2.2
      witnessKeyHex 1 1 2 [] rfl (by decide)).1⟩

end Board3
